import Mathlib

/-!
Shallow embedding of the `APIIngestor` HTTP ingestion helper
(`etl_project_youtube/backup.py`) and proofs of its specified properties.

JSON values are modelled by the inductive `Json`; Python dicts used for
query parameters are association lists with Python `dict` update semantics
(`dictSet`, `dictUpdate`).  The HTTP world is an oracle: for `_make_request`
a function from the attempt index to that attempt's outcome, and for the
fetch operations an abstract requester `String → Params → Except ... Json`
standing for the resilient request primitive.  In-place mutation of the
caller's parameter dict is modelled by threading: each fetch returns the
value the caller's dict holds after the call (`callerParams`).
-/

set_option autoImplicit false

namespace Ingest

/-- JSON values as produced by `response.json()`. -/
inductive Json where
  | null
  | bool (b : Bool)
  | num (n : Int)
  | str (s : String)
  | arr (xs : List Json)
  | obj (kvs : List (String × Json))

/-- Python truthiness of a JSON value (`if not items:`). -/
def Json.truthy : Json → Bool
  | .null => false
  | .bool b => b
  | .num n => n != 0
  | .str s => s.length != 0
  | .arr xs => !xs.isEmpty
  | .obj kvs => !kvs.isEmpty

/-- Python iteration over a JSON value, as used by `list.extend`:
lists yield their elements, dicts their keys, strings their characters;
other values are not iterable (`TypeError`). -/
def Json.pyIter : Json → Option (List Json)
  | .arr xs => some xs
  | .obj kvs => some (kvs.map fun kv => .str kv.1)
  | .str s => some (s.toList.map fun c => .str (String.mk [c]))
  | _ => none

/-- Query-parameter dicts (`Dict[str, Any]` restricted to JSON values). -/
abbrev Params := List (String × Json)

/-- Python dict item assignment `d[k] = v`: replace the value in place if the key is
present, otherwise append the new binding. -/
def dictSet (d : Params) (k : String) (v : Json) : Params :=
  if d.any (fun kv => kv.1 = k) then
    d.map (fun kv => if kv.1 = k then (k, v) else kv)
  else
    d ++ [(k, v)]

/-- Python dict update `d.update(kvs)`. -/
def dictUpdate (d : Params) (kvs : Params) : Params :=
  kvs.foldl (fun acc kv => dictSet acc kv.1 kv.2) d

/-- Python `d.copy()`: a fresh dict holding the same bindings. -/
def dictCopy (d : Params) : Params := d

/-- The outcome the network offers a single `requests.get` attempt:
either a `requests.RequestException` or a response with a status code,
a text body and a parsed JSON body. -/
inductive AttemptOutcome where
  | exn (msg : String)
  | resp (status : Nat) (body : String) (json : Json)

/-- Success test `response.status_code == 200`: the parsed JSON body when the attempt
succeeded, `none` when it failed. -/
def attemptSuccess : AttemptOutcome → Option Json
  | .resp status _ j => if status = 200 then some j else none
  | .exn _ => none

/-- The warning logged for a failed attempt (status and body, or
exception text). -/
def warnMsg : AttemptOutcome → String
  | .resp status body _ => "Request failed [" ++ toString status ++ "]: " ++ body
  | .exn msg => "Request exception: " ++ msg

/-- The exhaustion error raised by `_make_request` after all retries fail
(`Exception(f"Failed to fetch data from {url} after {max_retries} retries")`),
carrying the URL and the retry count. -/
structure RequestExhaustedError where
  url : String
  retries : Nat
deriving DecidableEq

/-- Observable trace of one `_make_request` call: its result, the number
of HTTP attempts issued, the sleeps performed (in seconds, in order) and
the warnings logged for failed attempts. -/
structure MakeRequestTrace where
  result : Except RequestExhaustedError Json
  attempts : Nat
  sleeps : List ℚ
  warns : List String

/-- The retry loop of `_make_request`.  `retries` is the loop counter,
`fuel = max_retries - retries` the remaining iterations; `oracle k` is the
outcome of the `(k+1)`-th attempt.  On failure the loop increments the
counter, sleeps `backoff_factor * 2 ** (retries - 1)` seconds and retries;
when the counter reaches `max_retries` it raises. -/
def mkRequestGo (maxR : Nat) (f : ℚ) (oracle : Nat → AttemptOutcome)
    (url : String) : Nat → Nat → MakeRequestTrace
  | _retries, 0 => ⟨.error ⟨url, maxR⟩, 0, [], []⟩
  | retries, fuel + 1 =>
    match attemptSuccess (oracle retries) with
    | some j => ⟨.ok j, 1, [], []⟩
    | none =>
      let t := mkRequestGo maxR f oracle url (retries + 1) fuel
      ⟨t.result, t.attempts + 1, f * 2 ^ retries :: t.sleeps,
        warnMsg (oracle retries) :: t.warns⟩

/-- The method `_make_request` of `APIIngestor`: GET with retry logic, for a given attempt
oracle. -/
def make_request (max_retries : Nat) (backoff_factor : ℚ) (url : String)
    (oracle : Nat → AttemptOutcome) : MakeRequestTrace :=
  mkRequestGo max_retries backoff_factor oracle url 0 max_retries

/-- The envelope unwrapping shared by both fetch operations:
`data.get("results") if isinstance(data, dict) and "results" in data else data`. -/
def unwrapEnvelope (data : Json) : Json :=
  match data with
  | .obj kvs =>
    match kvs.lookup "results" with
    | some v => v
    | none => .obj kvs
  | d => d

/-- Result of a `fetch_paginated` call.  `outOfFuel` marks a run whose
loop would still be going after `fuel` iterations (the Python loop is
`while True`). -/
inductive FetchOutcome where
  | ok (items : List Json)
  | exhausted (e : RequestExhaustedError)
  | typeError
  | outOfFuel

/-- Observable trace of one `fetch_paginated` call: the outcome, the
parameter dicts of the requests issued (in order), and the value the
caller's `params` dict holds after the call. -/
structure PaginatedRun where
  outcome : FetchOutcome
  requests : List Params
  callerParams : Params

/-- The per-page parameter dict: `params.copy() if params else {}` followed by
`paged_params.update({page_param: page, "results": per_page})`. -/
def pagedParams (params : Params) (page_param : String) (per_page : Int)
    (page : Nat) : Params :=
  dictUpdate (dictCopy params) [(page_param, .num page), ("results", .num per_page)]

/-- Python condition `if max_pages and page >= max_pages:` — truthiness of the
optional int, then the comparison. -/
def maxPagesReached (max_pages : Option Int) (page : Nat) : Bool :=
  match max_pages with
  | none => false
  | some m => (m != 0) && decide (m ≤ (page : Int))

/-- The `while True` loop of `fetch_paginated`.  `req` is the resilient
request primitive; `page` the page counter, `results` the accumulator,
`reqs` the requests issued so far.  A raised `RequestExhaustedError`
propagates, discarding the accumulated pages; a truthy non-iterable
envelope makes `results.extend(items)` raise `TypeError`. -/
def fetch_paginated_go (req : String → Params → Except RequestExhaustedError Json)
    (url : String) (params : Params) (page_param : String) (per_page : Int)
    (max_pages : Option Int) : Nat → Nat → List Json → List Params → PaginatedRun
  | _page, 0, _results, reqs => ⟨.outOfFuel, reqs, params⟩
  | page, fuel + 1, results, reqs =>
    let paged_params := pagedParams params page_param per_page page
    let reqs' := reqs ++ [paged_params]
    match req url paged_params with
    | .error e => ⟨.exhausted e, reqs', params⟩
    | .ok data =>
      let items := unwrapEnvelope data
      if items.truthy = false then ⟨.ok results, reqs', params⟩
      else
        match items.pyIter with
        | none => ⟨.typeError, reqs', params⟩
        | some xs =>
          let results' := results ++ xs
          if maxPagesReached max_pages page then ⟨.ok results', reqs', params⟩
          else if (xs.length : Int) < per_page then ⟨.ok results', reqs', params⟩
          else fetch_paginated_go req url params page_param per_page max_pages
            (page + 1) fuel results' reqs'

/-- The method `fetch_paginated` of `APIIngestor`: fetch all pages of
`base_url + endpoint`, starting at page 1. -/
def fetch_paginated (req : String → Params → Except RequestExhaustedError Json)
    (base_url endpoint : String) (params : Params)
    (page_param : String := "page") (per_page : Int := 100)
    (max_pages : Option Int := none) (fuel : Nat) : PaginatedRun :=
  fetch_paginated_go req (base_url ++ endpoint) params page_param per_page
    max_pages 1 fuel [] []

/-- Observable trace of one `fetch_incremental` call. -/
structure IncrementalRun where
  result : Except RequestExhaustedError Json
  requests : List Params
  callerParams : Params

/-- The method `fetch_incremental` of `APIIngestor`: one request, with the `since` cursor
injected when it is truthy (`if since:`). -/
def fetch_incremental (req : String → Params → Except RequestExhaustedError Json)
    (base_url endpoint : String) (since : Option String := none)
    (params : Params := []) : IncrementalRun :=
  let query_params := dictCopy params
  let query_params :=
    match since with
    | some s => if s.length != 0 then dictSet query_params "since" (.str s) else query_params
    | none => query_params
  match req (base_url ++ endpoint) query_params with
  | .error e => ⟨.error e, [query_params], params⟩
  | .ok data => ⟨.ok (unwrapEnvelope data), [query_params], params⟩

/-- Python `range(start, stop, step)` over naturals with a positive step
(`range(0, n, 0)` raises `ValueError` in Python; here it yields `[]`,
a case the theorems exclude by hypothesis). -/
def rangeStep (start stop step : Nat) : List Nat :=
  if _h : 0 < step ∧ start < stop then
    start :: rangeStep (start + step) stop step
  else []
termination_by stop - start
decreasing_by omega

/-- The method `batch_process` of `APIIngestor`:
`for i in range(0, len(data), batch_size): yield data[i:i + batch_size]`,
materialised as the list of yielded batches. -/
def batch_process (data : List Json) (batch_size : Nat := 50) : List (List Json) :=
  (rangeStep 0 data.length batch_size).map (fun i => (data.drop i).take batch_size)

/-- A requester whose every request returns status-200 JSON `j`. -/
def constReq (j : Json) : String → Params → Except RequestExhaustedError Json :=
  fun _ _ => .ok j

/-- A requester whose every request exhausts its retries with error `e`. -/
def failReq (e : RequestExhaustedError) : String → Params → Except RequestExhaustedError Json :=
  fun _ _ => .error e

/-- The attempt oracle used by the C6 witness: a 500 response, then a
transport exception, then a 200 response. -/
def w6oracle : Nat → AttemptOutcome := fun k =>
  if k = 0 then .resp 500 "err" .null
  else if k = 1 then .exn "t"
  else .resp 200 "ok" (.num 7)

/-- The page-response sequence used by the C3 witness. -/
def w3pages : Nat → List Json := fun _ => [.num 1, .num 2]

/-- The concrete 107-record input of the batching property. -/
def data107 : List Json := (List.range 107).map (fun i => Json.num (Int.ofNat i))

/-! ### Helper lemmas: the retry loop -/

theorem mkRequestGo_allFail (maxR : Nat) (f : ℚ) (oracle : Nat → AttemptOutcome)
    (url : String) :
    ∀ (fuel retries : Nat),
      (∀ k, retries ≤ k → k < retries + fuel → attemptSuccess (oracle k) = none) →
      mkRequestGo maxR f oracle url retries fuel =
        ⟨.error ⟨url, maxR⟩, fuel,
          (List.range fuel).map (fun i => f * 2 ^ (retries + i)),
          (List.range fuel).map (fun i => warnMsg (oracle (retries + i)))⟩
  | 0, retries, _h => by simp [mkRequestGo]
  | fuel + 1, retries, h => by
    have h0 : attemptSuccess (oracle retries) = none := h retries le_rfl (by omega)
    have ih := mkRequestGo_allFail maxR f oracle url fuel (retries + 1)
      (fun k hk1 hk2 => h k (by omega) (by omega))
    rw [mkRequestGo, h0, ih]
    simp [List.range_succ_eq_map, List.map_map, Function.comp]
    constructor
    · exact fun a _ => Or.inl (by omega)
    · exact fun a _ => by rw [show retries + 1 + a = retries + (a + 1) by omega]

theorem mkRequestGo_firstSuccess (maxR : Nat) (f : ℚ) (oracle : Nat → AttemptOutcome)
    (url : String) :
    ∀ (d retries fuel : Nat) (j : Json),
      (∀ k, retries ≤ k → k < retries + d → attemptSuccess (oracle k) = none) →
      attemptSuccess (oracle (retries + d)) = some j →
      d < fuel →
      mkRequestGo maxR f oracle url retries fuel =
        ⟨.ok j, d + 1,
          (List.range d).map (fun i => f * 2 ^ (retries + i)),
          (List.range d).map (fun i => warnMsg (oracle (retries + i)))⟩
  | d, _retries, 0, _j, _h, _hs, hd => absurd hd (Nat.not_lt_zero d)
  | 0, retries, fuel + 1, j, _h, hs, _hd => by
    rw [show retries + 0 = retries from rfl] at hs
    rw [mkRequestGo, hs]
    simp
  | d + 1, retries, fuel + 1, j, h, hs, hd => by
    have h0 : attemptSuccess (oracle retries) = none := h retries le_rfl (by omega)
    have ih := mkRequestGo_firstSuccess maxR f oracle url d (retries + 1) fuel j
      (fun k hk1 hk2 => h k (by omega) (by omega))
      (by rw [show retries + 1 + d = retries + (d + 1) by omega]; exact hs)
      (by omega)
    rw [mkRequestGo, h0, ih]
    simp [List.range_succ_eq_map, List.map_map, Function.comp]
    constructor
    · exact fun a _ => Or.inl (by omega)
    · exact fun a _ => by rw [show retries + 1 + a = retries + (a + 1) by omega]

/-! ### Helper lemmas: one iteration of the pagination loop -/

theorem fetch_go_step_error (req : String → Params → Except RequestExhaustedError Json)
    (url : String) (params : Params) (pp : String) (per : Int) (mp : Option Int)
    (page fuel : Nat) (results : List Json) (reqs : List Params)
    (e : RequestExhaustedError)
    (h : req url (pagedParams params pp per page) = .error e) :
    fetch_paginated_go req url params pp per mp page (fuel + 1) results reqs =
      ⟨.exhausted e, reqs ++ [pagedParams params pp per page], params⟩ := by
  rw [fetch_paginated_go]
  simp only [h]

theorem fetch_go_step_empty (req : String → Params → Except RequestExhaustedError Json)
    (url : String) (params : Params) (pp : String) (per : Int) (mp : Option Int)
    (page fuel : Nat) (results : List Json) (reqs : List Params) (data : Json)
    (h : req url (pagedParams params pp per page) = .ok data)
    (ht : (unwrapEnvelope data).truthy = false) :
    fetch_paginated_go req url params pp per mp page (fuel + 1) results reqs =
      ⟨.ok results, reqs ++ [pagedParams params pp per page], params⟩ := by
  rw [fetch_paginated_go]
  simp only [h, ht]
  simp

theorem fetch_go_step_max (req : String → Params → Except RequestExhaustedError Json)
    (url : String) (params : Params) (pp : String) (per : Int) (mp : Option Int)
    (page fuel : Nat) (results : List Json) (reqs : List Params) (data : Json)
    (xs : List Json)
    (h : req url (pagedParams params pp per page) = .ok data)
    (ht : (unwrapEnvelope data).truthy = true)
    (hi : (unwrapEnvelope data).pyIter = some xs)
    (hm : maxPagesReached mp page = true) :
    fetch_paginated_go req url params pp per mp page (fuel + 1) results reqs =
      ⟨.ok (results ++ xs), reqs ++ [pagedParams params pp per page], params⟩ := by
  rw [fetch_paginated_go]
  simp only [h, ht, hi, hm]
  simp

theorem fetch_go_step_short (req : String → Params → Except RequestExhaustedError Json)
    (url : String) (params : Params) (pp : String) (per : Int) (mp : Option Int)
    (page fuel : Nat) (results : List Json) (reqs : List Params) (data : Json)
    (xs : List Json)
    (h : req url (pagedParams params pp per page) = .ok data)
    (ht : (unwrapEnvelope data).truthy = true)
    (hi : (unwrapEnvelope data).pyIter = some xs)
    (hm : maxPagesReached mp page = false)
    (hs : (xs.length : Int) < per) :
    fetch_paginated_go req url params pp per mp page (fuel + 1) results reqs =
      ⟨.ok (results ++ xs), reqs ++ [pagedParams params pp per page], params⟩ := by
  rw [fetch_paginated_go]
  simp only [h, ht, hi, hm]
  simp [hs]

theorem fetch_go_step_continue (req : String → Params → Except RequestExhaustedError Json)
    (url : String) (params : Params) (pp : String) (per : Int) (mp : Option Int)
    (page fuel : Nat) (results : List Json) (reqs : List Params) (data : Json)
    (xs : List Json)
    (h : req url (pagedParams params pp per page) = .ok data)
    (ht : (unwrapEnvelope data).truthy = true)
    (hi : (unwrapEnvelope data).pyIter = some xs)
    (hm : maxPagesReached mp page = false)
    (hs : ¬ (xs.length : Int) < per) :
    fetch_paginated_go req url params pp per mp page (fuel + 1) results reqs =
      fetch_paginated_go req url params pp per mp (page + 1) fuel (results ++ xs)
        (reqs ++ [pagedParams params pp per page]) := by
  rw [fetch_paginated_go]
  simp only [h, ht, hi, hm]
  simp [hs]

/-! ### C1 -/

/-- C1: if every one of the `max_retries` attempts fails, `_make_request`
raises the exhaustion error carrying the URL and the retry count after
exactly `max_retries` attempts, no more, no fewer; the error propagates
through the calling fetch operation, which returns no partial result
(the pages accumulated so far are discarded). -/
theorem make_request_exhaustion
    (maxR : Nat) (f : ℚ) (url : String) (oracle : Nat → AttemptOutcome)
    (hfail : ∀ k, k < maxR → attemptSuccess (oracle k) = none)
    (req : String → Params → Except RequestExhaustedError Json)
    (params : Params) (pp : String) (per : Int) (mp : Option Int)
    (page fuel : Nat) (results : List Json) (reqs : List Params)
    (e : RequestExhaustedError)
    (hreq : req url (pagedParams params pp per page) = .error e) :
    (make_request maxR f url oracle).result = .error ⟨url, maxR⟩ ∧
    (make_request maxR f url oracle).attempts = maxR ∧
    fetch_paginated_go req url params pp per mp page (fuel + 1) results reqs =
      ⟨.exhausted e, reqs ++ [pagedParams params pp per page], params⟩ := by
  have h := mkRequestGo_allFail maxR f oracle url maxR 0
    (fun k _hk1 hk2 => hfail k (by omega))
  refine ⟨?_, ?_,
    fetch_go_step_error req url params pp per mp page fuel results reqs e hreq⟩
  · rw [make_request, h]
  · rw [make_request, h]

theorem make_request_exhaustion_witness :
    (make_request 2 1 "u" (fun _ => .exn "down")).result = .error ⟨"u", 2⟩ ∧
    (make_request 2 1 "u" (fun _ => .exn "down")).attempts = 2 ∧
    fetch_paginated_go (failReq ⟨"u", 2⟩) "u" [] "page" 100 none 1 (0 + 1)
      [Json.num 5] [] =
      ⟨.exhausted ⟨"u", 2⟩, [] ++ [pagedParams [] "page" 100 1], []⟩ :=
  make_request_exhaustion 2 1 "u" (fun _ => .exn "down") (fun _ _ => rfl)
    (failReq ⟨"u", 2⟩) [] "page" 100 none 1 0 [Json.num 5] [] ⟨"u", 2⟩ rfl

/-! ### C5 -/

/-- C5: with backoff factor `f`, the sleep between failed attempt `k` and
attempt `k + 1` (`k` 1-indexed; index `k - 1` below) lasts exactly
`f * 2 ^ (k - 1)` seconds, and a sleep is also performed after the final
failed attempt, immediately before exhaustion is raised (so an exhausted
call performs `max_retries` sleeps). -/
theorem make_request_backoff_schedule
    (maxR : Nat) (f : ℚ) (url : String) (oracle : Nat → AttemptOutcome)
    (hfail : ∀ k, k < maxR → attemptSuccess (oracle k) = none) :
    (make_request maxR f url oracle).sleeps.length = maxR ∧
    (∀ k, k < maxR → (make_request maxR f url oracle).sleeps[k]? = some (f * 2 ^ k)) ∧
    (make_request maxR f url oracle).result = .error ⟨url, maxR⟩ := by
  have h := mkRequestGo_allFail maxR f oracle url maxR 0
    (fun k _hk1 hk2 => hfail k (by omega))
  rw [make_request, h]
  refine ⟨by simp, ?_, rfl⟩
  intro k hk
  simp [List.getElem?_map, List.getElem?_range, hk]

theorem make_request_backoff_schedule_witness :
    (make_request 3 1 "u" (fun _ => .exn "down")).sleeps.length = 3 ∧
    (make_request 3 1 "u" (fun _ => .exn "down")).sleeps[0]? = some 1 ∧
    (make_request 3 1 "u" (fun _ => .exn "down")).sleeps[1]? = some 2 ∧
    (make_request 3 1 "u" (fun _ => .exn "down")).sleeps[2]? = some 4 ∧
    (make_request 3 1 "u" (fun _ => .exn "down")).result = .error ⟨"u", 3⟩ := by
  have h := make_request_backoff_schedule 3 1 "u" (fun _ => .exn "down") (fun _ _ => rfl)
  refine ⟨h.1, ?_, ?_, ?_, h.2.2⟩
  · have h0 := h.2.1 0 (by omega); norm_num at h0; exact h0
  · have h1 := h.2.1 1 (by omega); norm_num at h1; exact h1
  · have h2 := h.2.1 2 (by omega); norm_num at h2; exact h2

/-! ### C6 -/

/-- C6: an attempt is successful iff its status code is exactly 200, in
which case the parsed JSON body is returned immediately (after `d` failed
attempts the call makes exactly `d + 1` attempts); every non-200 status
and every transport exception is a failed attempt that is logged with a
warning and does not abort the retry loop. -/
theorem make_request_success_iff_200
    (maxR : Nat) (f : ℚ) (url : String) (oracle : Nat → AttemptOutcome)
    (d : Nat) (jsn : Json) (body : String)
    (hbefore : ∀ k, k < d → attemptSuccess (oracle k) = none)
    (hd : d < maxR)
    (hsucc : oracle d = .resp 200 body jsn) :
    (∀ k s b j, oracle k = .resp s b j →
      (attemptSuccess (oracle k) = some j ↔ s = 200)) ∧
    (∀ k m, oracle k = .exn m → attemptSuccess (oracle k) = none) ∧
    make_request maxR f url oracle =
      ⟨.ok jsn, d + 1,
        (List.range d).map (fun i => f * 2 ^ i),
        (List.range d).map (fun i => warnMsg (oracle i))⟩ := by
  refine ⟨?_, ?_, ?_⟩
  · intro k s b j hk
    rw [hk]
    unfold attemptSuccess
    constructor
    · intro h
      by_contra hs
      simp [hs] at h
    · intro h
      simp [h]
  · intro k m hk
    rw [hk]
    rfl
  · have h := mkRequestGo_firstSuccess maxR f oracle url d 0 maxR jsn
      (fun k _hk1 hk2 => hbefore k (by omega))
      (by rw [show 0 + d = d from by omega, hsucc]; simp [attemptSuccess])
      hd
    rw [make_request, h]
    simp

theorem make_request_success_iff_200_witness :
    make_request 3 1 "u" w6oracle =
      ⟨.ok (.num 7), 3, [1, 2],
        ["Request failed [500]: err", "Request exception: t"]⟩ := by
  have h := make_request_success_iff_200 3 1 "u" w6oracle 2 (.num 7) "ok"
    (fun k hk => by interval_cases k <;> rfl) (by omega) rfl
  rw [h.2.2]
  norm_num [List.range_succ, w6oracle, warnMsg]
  exact ⟨rfl, rfl⟩

/-! ### C2 -/

/-- C2: after each page fetch the loop checks, in order: an empty page
stops the loop and contributes nothing; then a reached maximum page count
stops the loop with this page included (even when the page is short or
full); then a short page (strictly fewer than `per_page` items) stops the
loop with this page included; otherwise the page counter is incremented
and fetching continues.  An empty first page yields an empty result with
exactly one request issued. -/
theorem fetch_paginated_termination_order
    (req : String → Params → Except RequestExhaustedError Json)
    (base_url endpoint url : String) (params : Params) (pp : String)
    (per : Int) (mp : Option Int) (page fuel : Nat) (results : List Json)
    (reqs : List Params) (data : Json) (xs : List Json)
    (h : req url (pagedParams params pp per page) = .ok data) :
    ((unwrapEnvelope data).truthy = false →
      fetch_paginated_go req url params pp per mp page (fuel + 1) results reqs =
        ⟨.ok results, reqs ++ [pagedParams params pp per page], params⟩) ∧
    ((unwrapEnvelope data).truthy = true →
      (unwrapEnvelope data).pyIter = some xs →
      maxPagesReached mp page = true →
      fetch_paginated_go req url params pp per mp page (fuel + 1) results reqs =
        ⟨.ok (results ++ xs), reqs ++ [pagedParams params pp per page], params⟩) ∧
    ((unwrapEnvelope data).truthy = true →
      (unwrapEnvelope data).pyIter = some xs →
      maxPagesReached mp page = false →
      (xs.length : Int) < per →
      fetch_paginated_go req url params pp per mp page (fuel + 1) results reqs =
        ⟨.ok (results ++ xs), reqs ++ [pagedParams params pp per page], params⟩) ∧
    ((unwrapEnvelope data).truthy = true →
      (unwrapEnvelope data).pyIter = some xs →
      maxPagesReached mp page = false →
      ¬ (xs.length : Int) < per →
      fetch_paginated_go req url params pp per mp page (fuel + 1) results reqs =
        fetch_paginated_go req url params pp per mp (page + 1) fuel (results ++ xs)
          (reqs ++ [pagedParams params pp per page])) ∧
    (req (base_url ++ endpoint) (pagedParams params pp per 1) = .ok (.arr []) →
      fetch_paginated req base_url endpoint params pp per mp (fuel + 1) =
        ⟨.ok [], [pagedParams params pp per 1], params⟩) :=
  ⟨fun ht => fetch_go_step_empty req url params pp per mp page fuel results reqs data h ht,
   fun ht hi hm => fetch_go_step_max req url params pp per mp page fuel results reqs data xs h ht hi hm,
   fun ht hi hm hs => fetch_go_step_short req url params pp per mp page fuel results reqs data xs h ht hi hm hs,
   fun ht hi hm hs => fetch_go_step_continue req url params pp per mp page fuel results reqs data xs h ht hi hm hs,
   fun h1 => by
    rw [fetch_paginated,
      fetch_go_step_empty req (base_url ++ endpoint) params pp per mp 1 fuel [] []
        (.arr []) h1 rfl]
    rfl⟩

theorem fetch_paginated_termination_order_witness :
    (fetch_paginated_go (constReq (.arr [])) "u" [] "page" 100 none 1 (0 + 1) [] [] =
      ⟨.ok [], [] ++ [pagedParams [] "page" 100 1], []⟩) ∧
    (fetch_paginated_go (constReq (.arr [.num 1])) "u" [] "page" 100 (some 1) 1 (0 + 1) [] [] =
      ⟨.ok ([] ++ [.num 1]), [] ++ [pagedParams [] "page" 100 1], []⟩) ∧
    (fetch_paginated_go (constReq (.arr [.num 2])) "u" [] "page" 100 none 1 (0 + 1) [] [] =
      ⟨.ok ([] ++ [.num 2]), [] ++ [pagedParams [] "page" 100 1], []⟩) ∧
    (fetch_paginated_go (constReq (.arr [.num 3])) "u" [] "page" 1 none 1 (1 + 1) [] [] =
      fetch_paginated_go (constReq (.arr [.num 3])) "u" [] "page" 1 none 2 1
        ([] ++ [.num 3]) ([] ++ [pagedParams [] "page" 1 1])) ∧
    (fetch_paginated (constReq (.arr [])) "b" "e" [] "page" 100 none (0 + 1) =
      ⟨.ok [], [pagedParams [] "page" 100 1], []⟩) :=
  ⟨(fetch_paginated_termination_order (constReq (.arr [])) "b" "e" "u" [] "page" 100 none 1 0
      [] [] (.arr []) [] rfl).1 rfl,
   (fetch_paginated_termination_order (constReq (.arr [.num 1])) "b" "e" "u" [] "page" 100
      (some 1) 1 0 [] [] (.arr [.num 1]) [.num 1] rfl).2.1 rfl rfl (by decide),
   (fetch_paginated_termination_order (constReq (.arr [.num 2])) "b" "e" "u" [] "page" 100
      none 1 0 [] [] (.arr [.num 2]) [.num 2] rfl).2.2.1 rfl rfl rfl (by decide),
   (fetch_paginated_termination_order (constReq (.arr [.num 3])) "b" "e" "u" [] "page" 1
      none 1 1 [] [] (.arr [.num 3]) [.num 3] rfl).2.2.2.1 rfl rfl rfl (by decide),
   (fetch_paginated_termination_order (constReq (.arr [])) "b" "e" ("b" ++ "e") [] "page" 100
      none 1 0 [] [] (.arr []) [] rfl).2.2.2.2 rfl⟩

/-! ### C3 -/

theorem fetch_go_ok_concat
    (req : String → Params → Except RequestExhaustedError Json) (url : String)
    (params : Params) (pp : String) (per : Int) (mp : Option Int)
    (pages : Nat → List Json)
    (H : ∀ p, req url (pagedParams params pp per p) = .ok (.arr (pages p))) :
    ∀ (fuel page : Nat) (results : List Json) (reqs : List Params)
      (res : List Json) (reqs' : List Params) (cp : Params),
      fetch_paginated_go req url params pp per mp page fuel results reqs =
        ⟨.ok res, reqs', cp⟩ →
      ∃ n, reqs' = reqs ++ (List.range n).map (fun i => pagedParams params pp per (page + i)) ∧
        res = results ++ ((List.range n).map (fun i => pages (page + i))).flatten
  | 0, page, results, reqs, res, reqs', cp, hgo => by
    rw [fetch_paginated_go] at hgo
    exact absurd (congrArg PaginatedRun.outcome hgo) (by simp)
  | fuel + 1, page, results, reqs, res, reqs', cp, hgo => by
    by_cases hemp : pages page = []
    · rw [fetch_go_step_empty req url params pp per mp page fuel results reqs
        (.arr (pages page)) (H page) (by simp [unwrapEnvelope, Json.truthy, hemp])] at hgo
      injection hgo with h1 h2 h3
      injection h1 with h1
      refine ⟨1, ?_, ?_⟩
      · rw [← h2]; simp [List.range_succ]
      · rw [← h1]
        simp [hemp]
    · have ht : (unwrapEnvelope (.arr (pages page))).truthy = true := by
        simp [unwrapEnvelope, Json.truthy, hemp]
      have hi : (unwrapEnvelope (.arr (pages page))).pyIter = some (pages page) := rfl
      by_cases hm : maxPagesReached mp page = true
      · rw [fetch_go_step_max req url params pp per mp page fuel results reqs
          (.arr (pages page)) (pages page) (H page) ht hi hm] at hgo
        injection hgo with h1 h2 h3
        injection h1 with h1
        exact ⟨1, by rw [← h2]; simp [List.range_succ], by rw [← h1]; simp [List.range_succ]⟩
      · rw [Bool.not_eq_true] at hm
        by_cases hs : ((pages page).length : Int) < per
        · rw [fetch_go_step_short req url params pp per mp page fuel results reqs
            (.arr (pages page)) (pages page) (H page) ht hi hm hs] at hgo
          injection hgo with h1 h2 h3
          injection h1 with h1
          exact ⟨1, by rw [← h2]; simp [List.range_succ], by rw [← h1]; simp [List.range_succ]⟩
        · rw [fetch_go_step_continue req url params pp per mp page fuel results reqs
            (.arr (pages page)) (pages page) (H page) ht hi hm hs] at hgo
          obtain ⟨n, hr, hres⟩ := fetch_go_ok_concat req url params pp per mp pages H
            fuel (page + 1) (results ++ pages page)
            (reqs ++ [pagedParams params pp per page]) res reqs' cp hgo
          refine ⟨n + 1, ?_, ?_⟩
          · rw [hr]
            simp [List.range_succ_eq_map, List.map_map, Function.comp]
            exact fun a _ => by rw [show page + 1 + a = page + (a + 1) by omega]
          · rw [hres]
            simp [List.range_succ_eq_map, List.map_map, Function.comp]
            exact congrArg List.flatten (List.map_congr_left fun a _ => by
              simp only [Function.comp_apply, Nat.succ_eq_add_one]
              exact congrArg pages (by omega))

/-- C3: for every sequence of page responses, `fetch_paginated` returns
the concatenation of the fetched pages' item lists in page-fetch order,
preserving the relative order of items within and across pages; the
result is empty when the first page is empty. -/
theorem fetch_paginated_concat_order
    (req : String → Params → Except RequestExhaustedError Json)
    (base_url endpoint : String) (params : Params) (pp : String) (per : Int)
    (mp : Option Int) (pages : Nat → List Json)
    (H : ∀ p, req (base_url ++ endpoint) (pagedParams params pp per p) =
      .ok (.arr (pages p)))
    (fuel : Nat) (res : List Json) (reqs' : List Params) (cp : Params)
    (hrun : fetch_paginated req base_url endpoint params pp per mp fuel =
      ⟨.ok res, reqs', cp⟩) :
    res = ((List.range reqs'.length).map (fun i => pages (1 + i))).flatten ∧
    (pages 1 = [] → res = []) := by
  rw [fetch_paginated] at hrun
  obtain ⟨n, hr, hres⟩ := fetch_go_ok_concat req (base_url ++ endpoint) params pp per
    mp pages H fuel 1 [] [] res reqs' cp hrun
  have hn : reqs'.length = n := by rw [hr]; simp
  constructor
  · rw [hn, hres]
    simp
  · intro h1
    cases fuel with
    | zero =>
      rw [fetch_paginated_go] at hrun
      exact absurd (congrArg PaginatedRun.outcome hrun) (by simp)
    | succ m =>
      rw [fetch_go_step_empty req (base_url ++ endpoint) params pp per mp 1 m [] []
        (.arr (pages 1)) (H 1) (by simp [unwrapEnvelope, Json.truthy, h1])] at hrun
      injection hrun with ha _hb _hc
      injection ha with ha
      exact ha.symm

theorem fetch_paginated_concat_order_witness :
    [Json.num 1, Json.num 2] =
      ((List.range ([pagedParams [] "page" 100 1] : List Params).length).map
        (fun i => w3pages (1 + i))).flatten ∧
    (w3pages 1 = [] → [Json.num 1, Json.num 2] = ([] : List Json)) :=
  fetch_paginated_concat_order (constReq (.arr [.num 1, .num 2])) "b" "e" [] "page"
    100 none w3pages (fun _ => rfl) 1 [Json.num 1, Json.num 2]
    [pagedParams [] "page" 100 1] [] rfl

/-! ### C4 -/

/-- C4: envelope unwrapping is uniform across both fetch operations: a
mapping containing a `"results"` key yields that key's value, and a bare
array is passed through unchanged; in particular both `fetch_paginated`
and `fetch_incremental` return `[a, b]` whether the response is
`{"results": [a, b]}` or the bare array `[a, b]`. -/
theorem envelope_unwrapping_uniform :
    (∀ (kvs : List (String × Json)) (v : Json), kvs.lookup "results" = some v →
      unwrapEnvelope (.obj kvs) = v) ∧
    (∀ xs : List Json, unwrapEnvelope (.arr xs) = .arr xs) ∧
    (∀ (a b : Json) (base endpoint : String) (params : Params) (fuel : Nat),
      fetch_paginated (constReq (.obj [("results", .arr [a, b])])) base endpoint
          params "page" 100 none (fuel + 1) =
        ⟨.ok [a, b], [pagedParams params "page" 100 1], params⟩) ∧
    (∀ (a b : Json) (base endpoint : String) (params : Params) (fuel : Nat),
      fetch_paginated (constReq (.arr [a, b])) base endpoint params "page" 100 none
          (fuel + 1) =
        ⟨.ok [a, b], [pagedParams params "page" 100 1], params⟩) ∧
    (∀ (a b : Json) (base endpoint : String) (params : Params),
      fetch_incremental (constReq (.obj [("results", .arr [a, b])])) base endpoint
          none params =
        ⟨.ok (.arr [a, b]), [params], params⟩) ∧
    (∀ (a b : Json) (base endpoint : String) (params : Params),
      fetch_incremental (constReq (.arr [a, b])) base endpoint none params =
        ⟨.ok (.arr [a, b]), [params], params⟩) := by
  refine ⟨?_, fun xs => rfl, ?_, ?_, fun a b base endpoint params => rfl,
    fun a b base endpoint params => rfl⟩
  · intro kvs v h
    rw [unwrapEnvelope, h]
  · intro a b base endpoint params fuel
    rw [fetch_paginated,
      fetch_go_step_short (constReq (.obj [("results", .arr [a, b])]))
        (base ++ endpoint) params "page" 100 none 1 fuel [] []
        (.obj [("results", .arr [a, b])]) [a, b] rfl rfl rfl rfl (by simp)]
    rfl
  · intro a b base endpoint params fuel
    rw [fetch_paginated,
      fetch_go_step_short (constReq (.arr [a, b])) (base ++ endpoint) params "page"
        100 none 1 fuel [] [] (.arr [a, b]) [a, b] rfl rfl rfl rfl (by simp)]
    rfl

theorem envelope_unwrapping_uniform_witness :
    unwrapEnvelope (.obj [("x", .null), ("results", .num 3)]) = .num 3 ∧
    unwrapEnvelope (.arr [.num 1]) = .arr [.num 1] ∧
    fetch_incremental (constReq (.obj [("results", .arr [.num 1, .num 2])])) "b" "e"
        none [] = ⟨.ok (.arr [.num 1, .num 2]), [[]], []⟩ :=
  ⟨envelope_unwrapping_uniform.1 [("x", .null), ("results", .num 3)] (.num 3) rfl,
   envelope_unwrapping_uniform.2.1 [.num 1],
   envelope_unwrapping_uniform.2.2.2.2.1 (.num 1) (.num 2) "b" "e" []⟩

/-! ### C7 -/

theorem fetch_go_callerParams
    (req : String → Params → Except RequestExhaustedError Json) (url : String)
    (params : Params) (pp : String) (per : Int) (mp : Option Int) :
    ∀ (fuel page : Nat) (results : List Json) (reqs : List Params),
      (fetch_paginated_go req url params pp per mp page fuel results reqs).callerParams =
        params
  | 0, _, _, _ => rfl
  | fuel + 1, page, results, reqs => by
    rw [fetch_paginated_go]
    dsimp only
    split
    · rfl
    · split
      · rfl
      · split
        · rfl
        · split
          · rfl
          · split
            · rfl
            · exact fetch_go_callerParams req url params pp per mp fuel (page + 1) _ _

/-- C7: neither fetch operation mutates the caller-supplied `params`
mapping: after a paginated fetch, an incremental fetch, and a second
paginated fetch on the dict left by the first, the caller's dict still
holds exactly its original bindings (so no `page`, `results` or `since`
key has been added). -/
theorem fetch_params_not_mutated
    (req : String → Params → Except RequestExhaustedError Json)
    (base_url endpoint : String) (params : Params) (pp : String) (per : Int)
    (mp : Option Int) (fuel : Nat) (since : Option String) :
    (fetch_paginated req base_url endpoint params pp per mp fuel).callerParams =
      params ∧
    (fetch_incremental req base_url endpoint since params).callerParams = params ∧
    (fetch_paginated req base_url endpoint
        ((fetch_paginated req base_url endpoint params pp per mp fuel).callerParams)
        pp per mp fuel).callerParams = params ∧
    (∀ k : String,
      ((fetch_paginated req base_url endpoint params pp per mp fuel).callerParams).lookup k =
        params.lookup k) := by
  have hp : ∀ ps : Params,
      (fetch_paginated req base_url endpoint ps pp per mp fuel).callerParams = ps := by
    intro ps
    rw [fetch_paginated]
    exact fetch_go_callerParams req (base_url ++ endpoint) ps pp per mp fuel 1 [] []
  refine ⟨hp params, ?_, by rw [hp params]; exact hp params, fun k => by rw [hp params]⟩
  rw [fetch_incremental.eq_def]
  dsimp only
  split <;> rfl

/-! ### C10 -/

theorem fetch_go_mp_zero
    (req : String → Params → Except RequestExhaustedError Json) (url : String)
    (params : Params) (pp : String) (per : Int) :
    ∀ (fuel page : Nat) (results : List Json) (reqs : List Params),
      fetch_paginated_go req url params pp per (some 0) page fuel results reqs =
        fetch_paginated_go req url params pp per none page fuel results reqs
  | 0, _, _, _ => rfl
  | fuel + 1, page, results, reqs => by
    rw [fetch_paginated_go, fetch_paginated_go]
    dsimp only
    split
    · rfl
    · split
      · rfl
      · split
        · rfl
        · rw [show maxPagesReached (some 0) page = false from rfl,
            show maxPagesReached none page = false from rfl]
          split
          · rfl
          · split
            · rfl
            · exact fetch_go_mp_zero req url params pp per fuel (page + 1) _ _

/-- C10: `max_pages = 0` does not bound the fetch to zero pages: because
`if max_pages and ...` treats the falsy `0` as absent, a run with
`max_pages = 0` is identical to a run with `max_pages = None`, paginating
until an empty or short page (or fuel/exhaustion) stops it. -/
theorem fetch_paginated_max_pages_zero
    (req : String → Params → Except RequestExhaustedError Json)
    (base_url endpoint : String) (params : Params) (pp : String) (per : Int)
    (fuel : Nat) :
    fetch_paginated req base_url endpoint params pp per (some 0) fuel =
      fetch_paginated req base_url endpoint params pp per none fuel := by
  rw [fetch_paginated, fetch_paginated]
  exact fetch_go_mp_zero req (base_url ++ endpoint) params pp per fuel 1 [] []

/-! ### C8 -/

theorem rangeStep_eq_nil (start stop step : Nat) (h : ¬ (0 < step ∧ start < stop)) :
    rangeStep start stop step = [] := by
  rw [rangeStep]
  exact dif_neg h

theorem rangeStep_eq_cons (start stop step : Nat) (h : 0 < step ∧ start < stop) :
    rangeStep start stop step = start :: rangeStep (start + step) stop step := by
  rw [rangeStep]
  exact dif_pos h

theorem rangeStep_mem (step : Nat) :
    ∀ (stop s i : Nat), i ∈ rangeStep s stop step → s ≤ i ∧ i < stop
  | stop, s, i, h => by
    by_cases hc : 0 < step ∧ s < stop
    · rw [rangeStep_eq_cons s stop step hc] at h
      rcases List.mem_cons.mp h with h1 | h2
      · subst h1
        exact ⟨le_rfl, hc.2⟩
      · have hr := rangeStep_mem step stop (s + step) i h2
        exact ⟨by omega, hr.2⟩
    · rw [rangeStep_eq_nil s stop step hc] at h
      cases h
termination_by stop s _i => stop - s
decreasing_by omega

theorem flatten_slices (bs : Nat) (hbs : 0 < bs) (data : List Json) :
    ∀ start : Nat,
      ((rangeStep start data.length bs).map (fun i => (data.drop i).take bs)).flatten =
        data.drop start
  | start => by
    by_cases h : start < data.length
    · rw [rangeStep_eq_cons start data.length bs ⟨hbs, h⟩, List.map_cons,
        List.flatten_cons, flatten_slices bs hbs data (start + bs)]
      rw [show data.drop (start + bs) = (data.drop start).drop bs by
        rw [List.drop_drop, Nat.add_comm]]
      exact List.take_append_drop bs (data.drop start)
    · rw [rangeStep_eq_nil start data.length bs (fun hc => h hc.2)]
      rw [List.drop_eq_nil_of_le (by omega)]
      rfl
termination_by start => data.length - start
decreasing_by omega

theorem slices_dropLast_length (bs : Nat) (hbs : 0 < bs) (data : List Json) :
    ∀ start : Nat, ∀ b ∈ ((rangeStep start data.length bs).map
        (fun i => (data.drop i).take bs)).dropLast, b.length = bs
  | start => by
    intro b hb
    by_cases h : start < data.length
    · rw [rangeStep_eq_cons start data.length bs ⟨hbs, h⟩, List.map_cons] at hb
      by_cases h2 : start + bs < data.length
      · rw [List.dropLast_cons_of_ne_nil (by
          rw [Ne, List.map_eq_nil_iff]
          rw [rangeStep_eq_cons (start + bs) data.length bs ⟨hbs, h2⟩]
          simp)] at hb
        rcases List.mem_cons.mp hb with h1 | h3
        · subst h1
          rw [List.length_take, List.length_drop]
          omega
        · exact slices_dropLast_length bs hbs data (start + bs) b h3
      · rw [rangeStep_eq_nil (start + bs) data.length bs (fun hc => h2 hc.2)] at hb
        simp at hb
    · rw [rangeStep_eq_nil start data.length bs (fun hc => h hc.2)] at hb
      simp at hb
termination_by start => data.length - start
decreasing_by omega

/-- C8: for a positive `batch_size`, `batch_process` yields contiguous
slices of the input in order whose concatenation is exactly the input (no
overlap, no omission); every batch but the last has length `batch_size`,
every batch is nonempty and no longer than `batch_size`; an input of
length 107 with `batch_size = 50` yields batch lengths `[50, 50, 7]`. -/
theorem batch_process_partition (data : List Json) (bs : Nat) (hbs : 0 < bs) :
    (batch_process data bs).flatten = data ∧
    (∀ b ∈ (batch_process data bs).dropLast, b.length = bs) ∧
    (∀ b ∈ batch_process data bs, b.length ≤ bs ∧ b ≠ []) ∧
    (batch_process data107 50).map List.length = [50, 50, 7] := by
  refine ⟨?_, ?_, ?_, ?_⟩
  · rw [batch_process]
    exact flatten_slices bs hbs data 0
  · rw [batch_process]
    exact slices_dropLast_length bs hbs data 0
  · rw [batch_process]
    intro b hb
    obtain ⟨i, hi, rfl⟩ := List.mem_map.mp hb
    have hm := rangeStep_mem bs data.length 0 i hi
    constructor
    · rw [List.length_take]
      omega
    · rw [Ne, ← List.length_eq_zero, List.length_take, List.length_drop]
      omega
  · have hlen : data107.length = 107 := by
      rw [data107, List.length_map, List.length_range]
    rw [batch_process, hlen]
    rw [rangeStep_eq_cons 0 107 50 ⟨by omega, by omega⟩,
      rangeStep_eq_cons 50 107 50 ⟨by omega, by omega⟩,
      rangeStep_eq_cons 100 107 50 ⟨by omega, by omega⟩,
      rangeStep_eq_nil 150 107 50 (by omega)]
    simp only [List.map_cons, List.map_nil, List.length_take, List.length_drop, hlen]
    norm_num

theorem batch_process_partition_witness :
    (batch_process [Json.num 0, Json.num 1, Json.num 2] 2).flatten =
      [Json.num 0, Json.num 1, Json.num 2] ∧
    (batch_process data107 50).map List.length = [50, 50, 7] :=
  ⟨(batch_process_partition [Json.num 0, Json.num 1, Json.num 2] 2 (by decide)).1,
   (batch_process_partition [] 50 (by decide)).2.2.2⟩

/-! ### C9 -/

theorem dictSet_lookup_self (d : Params) (k : String) (v : Json) :
    (dictSet d k v).lookup k = some v := by
  induction d with
  | nil => simp [dictSet]
  | cons a t ih =>
    obtain ⟨a1, a2⟩ := a
    rw [dictSet]
    by_cases hk : a1 = k
    · rw [if_pos (by simp [hk])]
      rw [List.map_cons]
      simp only [hk, if_pos rfl]
      simp
    · by_cases ht : (t.any fun kv => kv.1 = k) = true
      · rw [if_pos (by simp [List.any_cons, ht])]
        rw [List.map_cons]
        simp only [if_neg hk]
        rw [List.lookup_cons]
        have hb : (k == a1) = false := beq_false_of_ne (fun h => hk h.symm)
        rw [hb]
        have hrest : t.map (fun kv => if kv.1 = k then (k, v) else kv) =
            dictSet t k v := by
          rw [dictSet, if_pos ht]
        rw [hrest]
        exact ih
      · have hcond : (((a1, a2) :: t).any fun kv => kv.1 = k) = false := by
          rw [List.any_cons]
          simp only [Bool.or_eq_false_iff]
          exact ⟨by simp [hk], Bool.eq_false_iff.mpr ht⟩
        rw [if_neg (by simp [hcond])]
        rw [List.cons_append, List.lookup_cons]
        have hb : (k == a1) = false := beq_false_of_ne (fun h => hk h.symm)
        rw [hb]
        have hrest : t ++ [(k, v)] = dictSet t k v := by
          rw [dictSet, if_neg ht]
        rw [hrest]
        exact ih

theorem fetch_incremental_requests_none
    (req : String → Params → Except RequestExhaustedError Json)
    (base_url endpoint : String) (params : Params) :
    (fetch_incremental req base_url endpoint none params).requests = [params] := by
  rw [fetch_incremental.eq_def]
  dsimp only
  split <;> rfl

theorem fetch_incremental_requests_some
    (req : String → Params → Except RequestExhaustedError Json)
    (base_url endpoint : String) (s : String) (params : Params)
    (hs : (s.length != 0) = true) :
    (fetch_incremental req base_url endpoint (some s) params).requests =
      [dictSet params "since" (.str s)] := by
  rw [fetch_incremental.eq_def]
  dsimp only
  rw [if_pos hs]
  split <;> rfl

theorem fetch_incremental_requests_falsy
    (req : String → Params → Except RequestExhaustedError Json)
    (base_url endpoint : String) (s : String) (params : Params)
    (hs : (s.length != 0) = false) :
    (fetch_incremental req base_url endpoint (some s) params).requests = [params] := by
  rw [fetch_incremental.eq_def]
  dsimp only
  rw [if_neg (by simp [hs])]
  split <;> rfl

/-- C9 counterexample: the cursor `""` is supplied but is not injected:
the single request is issued with the caller's (empty) parameter dict, so
its parameters are not the dict with a `"since"` binding that the claim
asserts; `if since:` treats the falsy empty string like an absent cursor. -/
theorem fetch_incremental_empty_since_counterexample :
    (fetch_incremental (constReq (.arr [])) "b" "e" (some "") []).requests =
      [([] : Params)] ∧
    (fetch_incremental (constReq (.arr [])) "b" "e" (some "") []).requests ≠
      [[("since", Json.str "")]] := by
  constructor
  · rfl
  · intro h
    rw [show (fetch_incremental (constReq (.arr [])) "b" "e" (some "") []).requests =
      [([] : Params)] from rfl] at h
    simp at h

/-- C9 (amended): `fetch_incremental` issues exactly one request; a
supplied non-empty `since` cursor is injected into the query parameters
under the key `"since"`; when `since` is omitted or empty, the caller's
parameters are sent unchanged (no `"since"` key is added). -/
theorem fetch_incremental_since_injection
    (req : String → Params → Except RequestExhaustedError Json)
    (base_url endpoint : String) (since : Option String) (params : Params) :
    (fetch_incremental req base_url endpoint since params).requests.length = 1 ∧
    (∀ s, since = some s → s ≠ "" →
      (fetch_incremental req base_url endpoint since params).requests =
        [dictSet params "since" (.str s)] ∧
      (dictSet params "since" (.str s)).lookup "since" = some (.str s)) ∧
    ((since = none ∨ since = some "") →
      (fetch_incremental req base_url endpoint since params).requests = [params]) := by
  have hlen1 : ∀ s : String, s ≠ "" → (s.length != 0) = true := by
    intro s hs
    have h0 : s.length ≠ 0 := by
      intro h0
      apply hs
      cases s with
      | mk l =>
        simp [String.length] at h0
        simp [h0]
    simpa using h0
  refine ⟨?_, ?_, ?_⟩
  · cases since with
    | none => rw [fetch_incremental_requests_none]; rfl
    | some s =>
      cases hs : (s.length != 0) with
      | true =>
        rw [fetch_incremental_requests_some req base_url endpoint s params hs]
        rfl
      | false =>
        rw [fetch_incremental_requests_falsy req base_url endpoint s params hs]
        rfl
  · intro s hsince hs
    subst hsince
    exact ⟨fetch_incremental_requests_some req base_url endpoint s params (hlen1 s hs),
      dictSet_lookup_self params "since" (.str s)⟩
  · intro hsince
    rcases hsince with h | h <;> subst h
    · exact fetch_incremental_requests_none req base_url endpoint params
    · exact fetch_incremental_requests_falsy req base_url endpoint "" params rfl

theorem fetch_incremental_since_injection_witness :
    (fetch_incremental (constReq (.arr [])) "b" "e" (some "2024-01-01") []).requests =
      [dictSet [] "since" (.str "2024-01-01")] ∧
    (dictSet ([] : Params) "since" (.str "2024-01-01")).lookup "since" =
      some (.str "2024-01-01") ∧
    (fetch_incremental (constReq (.arr [])) "b" "e" none []).requests =
      [([] : Params)] := by
  have h := fetch_incremental_since_injection (constReq (.arr [])) "b" "e"
    (some "2024-01-01") []
  have h2 := fetch_incremental_since_injection (constReq (.arr [])) "b" "e" none []
  obtain ⟨hreq, hlook⟩ := h.2.1 "2024-01-01" rfl (by decide)
  exact ⟨hreq, hlook, h2.2.2 (Or.inl rfl)⟩

end Ingest
